import Mathlib

/-!
Shallow embedding of the watchtower-proxy webhook relay (src/main.go).

Header maps are modelled as association lists `List (String × List String)`
(Go `http.Header` is `map[string][]string`; the server canonicalises inbound
keys, but the embedding keeps arbitrary string keys and mirrors the exact
operations the code performs on them).
-/

/-- ASCII lowercasing of a string, character by character.  This embeds Go
`strings.ToLower` for the ASCII names the program compares (header names,
the literal "true"). -/
def lowerString (s : String) : String := ⟨s.data.map Char.toLower⟩

/-- First-match lookup in an association list of headers, mirroring Go map
indexing `h[k]` (a Go map has unique keys, so first match is the match). -/
def lookupHeader : List (String × List String) → String → Option (List String)
  | [], _ => none
  | p :: rest, k' => if k' = p.1 then some p.2 else lookupHeader rest k'

/-- Go map assignment `h[k] = v`: replace the binding of `k` when present,
otherwise add it. `req.Header.Set` with an already-canonical key and the raw
assignment `req.Header[name] = values` both behave this way. -/
def setHeader (h : List (String × List String)) (k : String) (v : List String) :
    List (String × List String) :=
  if h.any (fun p => p.1 = k) then
    h.map (fun p => if p.1 = k then (k, v) else p)
  else h ++ [(k, v)]

/-- src/main.go lines 143-148: copy every inbound header whose lowercased
name is not "authorization". -/
def headersToForward (h : List (String × List String)) : List (String × List String) :=
  h.filter (fun p => lowerString p.1 ≠ "authorization")

/-- src/main.go lines 179-186: the goroutine sets
`Authorization: Bearer <apiKey>` and `Content-Type: application/json`,
then assigns every forwarded header over the result. -/
def outboundHeaders (apiKey : String) (inbound : List (String × List String)) :
    List (String × List String) :=
  (headersToForward inbound).foldl (fun acc p => setHeader acc p.1 p.2)
    (setHeader (setHeader [] "Authorization" (["Bearer " ++ apiKey]))
      "Content-Type" (["application/json"]))

/-- src/main.go line 37: `strings.ToLower(watchOnlyForLatestTag) == "true"`. -/
def parseWatchOnly (s : String) : Bool := lowerString s = "true"

/-- Decimal digit run accumulated into a `Nat`; fails on a non-digit.
Mirrors the digit loop of Go `strconv.ParseInt` for base 10. -/
def digitsVal : List Char → Nat → Option Nat
  | [], acc => some acc
  | c :: cs, acc =>
    if c.isDigit then digitsVal cs (acc * 10 + (c.toNat - 48)) else none

/-- Go `strconv.ParseInt(s, 10, 64)`: optional sign, at least one digit,
no other characters, and the value must fit in a signed 64-bit integer
(an out-of-range value makes `err != nil`, modelled as `none`). -/
def parseInt64 (s : String) : Option Int :=
  let signed : Bool × List Char :=
    match s.data with
    | c :: rest =>
      if c = '-' then (true, rest)
      else if c = '+' then (false, rest) else (false, s.data)
    | [] => (false, [])
  match signed.2 with
  | [] => none
  | ds =>
    match digitsVal ds 0 with
    | none => none
    | some n =>
      let v : Int := if signed.1 then -(n : Int) else (n : Int)
      if v < -(2 ^ 63) ∨ 2 ^ 63 - 1 < v then none else some v

/-- src/main.go lines 44-50: delay defaults to 20 and is overridden only by
a parseable, strictly positive `DELAY_SECONDS` value. -/
def delaySecondsOf (env : String) : Int :=
  if env = "" then 20
  else
    match parseInt64 env with
    | some v => if 0 < v then v else 20
    | none => 20

/-- src/main.go lines 53-56: empty `WATCHTOWER_URL` falls back to
`localhost:8080` (the second `if` at lines 58-63 can never fire). -/
def resolveWatchtowerURL (env : String) : String :=
  if env = "" then "localhost:8080" else env

/-! JSON values and a parser embedding Go `encoding/json` syntax checking,
followed by the struct decoding of `DockerHubPayload` (src/main.go 16-24). -/

/-- A parsed JSON value.  Numbers keep their raw text: the program never
reads a numeric value, it only needs a number to be recognised (a number in
a field expected to be a string or object is a decode error). -/
inductive Json where
  | null
  | boolVal (b : Bool)
  | numVal (s : String)
  | strVal (s : String)
  | arrVal (xs : List Json)
  | objVal (fs : List (String × Json))

/-- Skip JSON whitespace (space, tab, newline, carriage return). -/
def skipWs : List Char → List Char
  | c :: cs =>
    if c = ' ' ∨ c = '\t' ∨ c = '\n' ∨ c = '\r' then skipWs cs else c :: cs
  | [] => []

/-- Hexadecimal digit value. -/
def hexVal (c : Char) : Option Nat :=
  if '0' ≤ c ∧ c ≤ '9' then some (c.toNat - 48)
  else if 'a' ≤ c ∧ c ≤ 'f' then some (c.toNat - 87)
  else if 'A' ≤ c ∧ c ≤ 'F' then some (c.toNat - 55)
  else none

/-- Parse the body of a JSON string after the opening quote: accumulates
decoded characters (reversed) and returns the string with the input left
after the closing quote.  Unescaped control characters are rejected, as in
Go's scanner. -/
def parseStringBody : List Char → List Char → Option (String × List Char)
  | _, [] => none
  | acc, c :: cs =>
    if c = '\"' then some (⟨acc.reverse⟩, cs)
    else if c = '\\' then
      match cs with
      | [] => none
      | e :: cs2 =>
        if e = '\"' then parseStringBody ('\"' :: acc) cs2
        else if e = '\\' then parseStringBody ('\\' :: acc) cs2
        else if e = '/' then parseStringBody ('/' :: acc) cs2
        else if e = 'b' then parseStringBody ('\x08' :: acc) cs2
        else if e = 'f' then parseStringBody ('\x0c' :: acc) cs2
        else if e = 'n' then parseStringBody ('\n' :: acc) cs2
        else if e = 'r' then parseStringBody ('\r' :: acc) cs2
        else if e = 't' then parseStringBody ('\t' :: acc) cs2
        else if e = 'u' then
          match cs2 with
          | h1 :: h2 :: h3 :: h4 :: cs3 =>
            match hexVal h1, hexVal h2, hexVal h3, hexVal h4 with
            | some a, some b, some c2, some d =>
              parseStringBody (Char.ofNat (((a * 16 + b) * 16 + c2) * 16 + d) :: acc) cs3
            | _, _, _, _ => none
          | _ => none
        else none
    else if c.toNat < 32 then none
    else parseStringBody (c :: acc) cs

/-- Longest digit prefix of the input, with the remainder. -/
def digitSpan : List Char → List Char × List Char
  | [] => ([], [])
  | c :: cs =>
    if c.isDigit then
      match digitSpan cs with
      | (a, b) => (c :: a, b)
    else ([], c :: cs)

/-- Optional fraction part `.digits` of a JSON number. -/
def parseFrac : List Char → Option (List Char × List Char)
  | '.' :: cs =>
    match digitSpan cs with
    | ([], _) => none
    | (ds, rest) => some ('.' :: ds, rest)
  | cs => some ([], cs)

/-- Optional exponent part `[eE][+-]?digits` of a JSON number. -/
def parseExp : List Char → Option (List Char × List Char)
  | c :: cs =>
    if c = 'e' ∨ c = 'E' then
      match
        (match cs with
         | s :: r => if s = '+' ∨ s = '-' then ([s], r) else (([] : List Char), cs)
         | [] => ([], [])) with
      | (sgn, cs1) =>
        match digitSpan cs1 with
        | ([], _) => none
        | (ds, rest) => some (c :: (sgn ++ ds), rest)
    else some ([], c :: cs)
  | [] => some ([], [])

/-- A JSON number per RFC 8259 / Go's scanner: optional minus, `0` or a
nonzero-led digit run, optional fraction, optional exponent.  Returns the
raw consumed characters and the remainder. -/
def parseNumberChars (cs : List Char) : Option (List Char × List Char) :=
  match
    (match cs with
     | c :: rest => if c = '-' then ([c], rest) else (([] : List Char), cs)
     | [] => ([], [])) with
  | (sgn, cs1) =>
    match cs1 with
    | [] => none
    | c :: rest =>
      if c = '0' then
        match parseFrac rest with
        | none => none
        | some (fr, rest2) =>
          match parseExp rest2 with
          | none => none
          | some (ex, rest3) => some (sgn ++ [c] ++ fr ++ ex, rest3)
      else if c.isDigit then
        match digitSpan rest with
        | (ds, rest1) =>
          match parseFrac rest1 with
          | none => none
          | some (fr, rest2) =>
            match parseExp rest2 with
            | none => none
            | some (ex, rest3) => some (sgn ++ (c :: ds) ++ fr ++ ex, rest3)
      else none

/-- What a single parsing step produces: a value, array elements, or
object members. -/
inductive PRes where
  | v (j : Json)
  | l (js : List Json)
  | m (ms : List (String × Json))

/-- Parser mode: a value, the elements of a non-empty array, or the
members of a non-empty object. -/
inductive PMode where
  | val
  | elems
  | members

/-- One fuel-indexed recursive descent covering values, array element lists
and object member lists (a single function so that recursion is structural
on the fuel and kernel-reducible). -/
def parseStep : Nat → PMode → List Char → Option (PRes × List Char)
  | 0, _, _ => none
  | Nat.succ fuel, PMode.val, cs =>
    match skipWs cs with
    | [] => none
    | c :: rest =>
      if c = 'n' then
        match rest with
        | 'u' :: 'l' :: 'l' :: rest2 => some (.v .null, rest2)
        | _ => none
      else if c = 't' then
        match rest with
        | 'r' :: 'u' :: 'e' :: rest2 => some (.v (.boolVal true), rest2)
        | _ => none
      else if c = 'f' then
        match rest with
        | 'a' :: 'l' :: 's' :: 'e' :: rest2 => some (.v (.boolVal false), rest2)
        | _ => none
      else if c = '\"' then
        match parseStringBody [] rest with
        | some (s, rest2) => some (.v (.strVal s), rest2)
        | none => none
      else if c = '[' then
        match skipWs rest with
        | ']' :: rest2 => some (.v (.arrVal []), rest2)
        | _ =>
          match parseStep fuel PMode.elems rest with
          | some (.l js, rest2) => some (.v (.arrVal js), rest2)
          | _ => none
      else if c = '\x7b' then
        match skipWs rest with
        | '\x7d' :: rest2 => some (.v (.objVal []), rest2)
        | _ =>
          match parseStep fuel PMode.members rest with
          | some (.m ms, rest2) => some (.v (.objVal ms), rest2)
          | _ => none
      else if c = '-' ∨ c.isDigit then
        match parseNumberChars (c :: rest) with
        | some (ds, rest2) => some (.v (.numVal ⟨ds⟩), rest2)
        | none => none
      else none
  | Nat.succ fuel, PMode.elems, cs =>
    match parseStep fuel PMode.val cs with
    | some (.v j, rest) =>
      (match skipWs rest with
       | ',' :: rest2 =>
         match parseStep fuel PMode.elems rest2 with
         | some (.l js, rest3) => some (.l (j :: js), rest3)
         | _ => none
       | ']' :: rest2 => some (.l [j], rest2)
       | _ => none)
    | _ => none
  | Nat.succ fuel, PMode.members, cs =>
    match skipWs cs with
    | '\"' :: rest =>
      (match parseStringBody [] rest with
       | none => none
       | some (key, rest1) =>
         match skipWs rest1 with
         | ':' :: rest2 =>
           (match parseStep fuel PMode.val rest2 with
            | some (.v v, rest3) =>
              (match skipWs rest3 with
               | ',' :: rest4 =>
                 (match parseStep fuel PMode.members rest4 with
                  | some (.m ms, rest5) => some (.m ((key, v) :: ms), rest5)
                  | _ => none)
               | '\x7d' :: rest4 => some (.m [(key, v)], rest4)
               | _ => none)
            | _ => none)
         | _ => none)
    | _ => none

/-- Go `json.Unmarshal` syntax checking: the whole input must be exactly one
JSON value, with surrounding whitespace allowed. -/
def parseJson (s : String) : Option Json :=
  match parseStep (2 * s.length + 4) PMode.val s.data with
  | some (.v j, rest) => if skipWs rest = [] then some j else none
  | _ => none

/-- The semantic view the program decodes: `push_data.tag`. -/
structure PushData where
  tag : String
deriving DecidableEq

/-- The semantic view of `repository`: `name` and `repo_name`. -/
structure Repository where
  name : String
  repoName : String
deriving DecidableEq

/-- src/main.go lines 16-24: the struct `json.Unmarshal` fills. -/
structure DockerHubPayload where
  pushData : PushData
  repository : Repository
deriving DecidableEq

/-- The zero value of `DockerHubPayload` (all strings empty), which is what
`var payload DockerHubPayload` starts from. -/
def payloadZero : DockerHubPayload := ⟨⟨""⟩, ⟨"", ""⟩⟩

/-- Decode the members of a JSON object into `PushData`, Go style: keys are
matched case-insensitively against the `tag` field tag, later duplicates
overwrite, `null` leaves the field unchanged, a non-string value for `tag`
is an error, unknown keys are ignored. -/
def decodePushDataFields : PushData → List (String × Json) → Option PushData
  | cur, [] => some cur
  | cur, (k, v) :: rest =>
    if lowerString k = "tag" then
      match v with
      | .strVal s => decodePushDataFields ⟨s⟩ rest
      | .null => decodePushDataFields cur rest
      | _ => none
    else decodePushDataFields cur rest

/-- Decode the members of a JSON object into `Repository` (fields `name`
and `repo_name`), with the same Go conventions. -/
def decodeRepositoryFields : Repository → List (String × Json) → Option Repository
  | cur, [] => some cur
  | cur, (k, v) :: rest =>
    if lowerString k = "name" then
      match v with
      | .strVal s => decodeRepositoryFields ⟨s, cur.repoName⟩ rest
      | .null => decodeRepositoryFields cur rest
      | _ => none
    else if lowerString k = "repo_name" then
      match v with
      | .strVal s => decodeRepositoryFields ⟨cur.name, s⟩ rest
      | .null => decodeRepositoryFields cur rest
      | _ => none
    else decodeRepositoryFields cur rest

/-- Decode the members of the top-level JSON object into the payload:
`push_data` and `repository` must each be an object (or `null`, leaving the
sub-struct unchanged); any other shape is a decode error; unknown keys are
ignored; duplicate keys merge in order, as Go does. -/
def decodePayloadFields : DockerHubPayload → List (String × Json) → Option DockerHubPayload
  | cur, [] => some cur
  | cur, (k, v) :: rest =>
    if lowerString k = "push_data" then
      match v with
      | .objVal fs =>
        (match decodePushDataFields cur.pushData fs with
         | some pd => decodePayloadFields ⟨pd, cur.repository⟩ rest
         | none => none)
      | .null => decodePayloadFields cur rest
      | _ => none
    else if lowerString k = "repository" then
      match v with
      | .objVal fs =>
        (match decodeRepositoryFields cur.repository fs with
         | some rp => decodePayloadFields ⟨cur.pushData, rp⟩ rest
         | none => none)
      | .null => decodePayloadFields cur rest
      | _ => none
    else decodePayloadFields cur rest

/-- src/main.go line 113: `json.Unmarshal(body, &payload)`.  The body must
be a syntactically valid JSON document whose top level is an object (or
`null`, which leaves the zero value); a non-object top level or a
type-mismatched expected field is an error (`err != nil`), giving `none`. -/
def decodePayload (body : String) : Option DockerHubPayload :=
  match parseJson body with
  | some (.objVal fs) => decodePayloadFields payloadZero fs
  | some .null => some payloadZero
  | _ => none

/-! The webhook handler (src/main.go lines 85-222), modelled as the exact
sequence of externally visible actions it performs. -/

/-- Process-wide configuration captured by the handler closure. -/
structure Config where
  webhookID : String
  apiKey : String
  watchOnly : Bool
  delaySeconds : Int
  watchtowerURL : String
deriving DecidableEq

/-- One inbound request: the `{id}` path variable, the result of
`io.ReadAll(r.Body)` (`none` models a read error), and `r.Header`. -/
structure Request where
  id : String
  body : Option String
  headers : List (String × List String)
deriving DecidableEq

/-- The deferred goroutine spawned at src/main.go line 157: it sleeps
`delay` seconds, then performs one HTTP POST to `url` with body `body` and
headers `headers` (the sleep strictly precedes the call). -/
structure ScheduledTask where
  delay : Int
  url : String
  body : String
  headers : List (String × List String)
deriving DecidableEq

/-- An externally visible action of the handler, in program order:
writing the response status, writing a response body chunk, or spawning
the deferred-forward goroutine. -/
inductive Event where
  | writeStatus (code : Nat)
  | writeBody (s : String)
  | spawnTask (t : ScheduledTask)
deriving DecidableEq

/-- Response body of the filtered (tag not latest) path, line 135. -/
def notLatestBody (tag : String) : String :=
  "\x7b\"message\":\"Webhook received but not forwarded - tag is not latest\",\"tag\":\"" ++
    tag ++ "\"\x7d"

/-- Acknowledgment body of the accepted path, line 152. -/
def ackBody (id : String) : String :=
  "\x7b\"message\":\"Webhook received and queued for processing\",\"webhook_id\":\"" ++
    id ++ "\"\x7d"

/-- The accepted path, lines 150-160: write 201 and the acknowledgment,
then spawn the deferred task (`shouldForward` is always true here, since
the only assignment of `false` is followed by an early return). -/
def acceptEvents (cfg : Config) (req : Request) (body : String) : List Event :=
  [.writeStatus 201, .writeBody (ackBody req.id),
   .spawnTask ⟨cfg.delaySeconds, cfg.watchtowerURL ++ "/v1/update", body,
     outboundHeaders cfg.apiKey req.headers⟩]

/-- The handler at src/main.go lines 85-222 as its trace of visible
actions: id check (401), body read (400), optional tag filtering
(400 on undecodable JSON, 200 without task on a non-latest tag), and
otherwise the accepted path. -/
def handleEvents (cfg : Config) (req : Request) : List Event :=
  if req.id ≠ cfg.webhookID then
    [.writeStatus 401, .writeBody "Unauthorized\n"]
  else
    match req.body with
    | none => [.writeStatus 400, .writeBody "Bad Request\n"]
    | some body =>
      if cfg.watchOnly then
        match decodePayload body with
        | none => [.writeStatus 400, .writeBody "Bad Request\n"]
        | some payload =>
          if payload.pushData.tag ≠ "latest" then
            [.writeStatus 200, .writeBody (notLatestBody payload.pushData.tag)]
          else acceptEvents cfg req body
      else acceptEvents cfg req body

/-- The status line the caller sees: the first status written. -/
def respStatusOf (evs : List Event) : Option Nat :=
  match evs with
  | [] => none
  | .writeStatus c :: _ => some c
  | _ :: rest => respStatusOf rest

/-- The response body the caller sees: all body chunks concatenated. -/
def respBodyOf (evs : List Event) : String :=
  match evs with
  | [] => ""
  | .writeBody s :: rest => s ++ respBodyOf rest
  | _ :: rest => respBodyOf rest

/-- The deferred task spawned by the handler, when there is one. -/
def taskOf (evs : List Event) : Option ScheduledTask :=
  match evs with
  | [] => none
  | .spawnTask t :: _ => some t
  | _ :: rest => taskOf rest

/-! Helper lemmas about header lookup, Go-map assignment and the header
fold of the outbound request. -/

theorem lookupHeader_nil (k' : String) : lookupHeader [] k' = none := rfl

theorem lookupHeader_cons (p : String × List String) (t : List (String × List String))
    (k' : String) :
    lookupHeader (p :: t) k' = if k' = p.1 then some p.2 else lookupHeader t k' := rfl

theorem lookupHeader_cons2 (a : String) (b : List String)
    (t : List (String × List String)) (k' : String) :
    lookupHeader ((a, b) :: t) k' = if k' = a then some b else lookupHeader t k' := rfl

theorem lookupHeader_map_set_self (h : List (String × List String)) (k : String)
    (v : List String) (ha : h.any (fun p => p.1 = k) = true) :
    lookupHeader (h.map (fun p => if p.1 = k then (k, v) else p)) k = some v := by
  induction h with
  | nil => cases ha
  | cons p t ih =>
    rw [List.map_cons]
    by_cases hp : p.1 = k
    · rw [if_pos hp, lookupHeader_cons2, if_pos rfl]
    · rw [if_neg hp]
      have ha2 : t.any (fun q => q.1 = k) = true := by
        simp only [List.any_cons, Bool.or_eq_true, decide_eq_true_eq] at ha
        rcases ha with h1 | h2
        · exact absurd h1 hp
        · exact h2
      rw [lookupHeader_cons, if_neg (fun hc => hp hc.symm)]
      exact ih ha2

theorem lookupHeader_map_set_ne (h : List (String × List String)) (k k' : String)
    (v : List String) (hne : k' ≠ k) :
    lookupHeader (h.map (fun p => if p.1 = k then (k, v) else p)) k' =
      lookupHeader h k' := by
  induction h with
  | nil => rfl
  | cons p t ih =>
    rw [List.map_cons]
    by_cases hp : p.1 = k
    · rw [if_pos hp, lookupHeader_cons2, lookupHeader_cons,
        if_neg hne, if_neg (fun hc : k' = p.1 => hne (hp ▸ hc))]
      exact ih
    · rw [if_neg hp, lookupHeader_cons, lookupHeader_cons]
      by_cases hk : k' = p.1
      · rw [if_pos hk, if_pos hk]
      · rw [if_neg hk, if_neg hk]
        exact ih

theorem lookupHeader_append_single_ne (h : List (String × List String))
    (k k' : String) (v : List String) (hne : k' ≠ k) :
    lookupHeader (h ++ [(k, v)]) k' = lookupHeader h k' := by
  induction h with
  | nil => rw [List.nil_append, lookupHeader_cons2, if_neg hne]
  | cons p t ih =>
    rw [List.cons_append, lookupHeader_cons, lookupHeader_cons]
    by_cases hk : k' = p.1
    · rw [if_pos hk, if_pos hk]
    · rw [if_neg hk, if_neg hk]
      exact ih

theorem lookupHeader_append_single_self (h : List (String × List String))
    (k : String) (v : List String) (hno : h.any (fun p => p.1 = k) = false) :
    lookupHeader (h ++ [(k, v)]) k = some v := by
  induction h with
  | nil => rw [List.nil_append, lookupHeader_cons2, if_pos rfl]
  | cons p t ih =>
    simp only [List.any_cons, Bool.or_eq_false_iff, decide_eq_false_iff_not] at hno
    rw [List.cons_append, lookupHeader_cons, if_neg (fun hc : k = p.1 => hno.1 hc.symm)]
    exact ih (by simpa using hno.2)

theorem lookupHeader_setHeader (h : List (String × List String)) (k k' : String)
    (v : List String) :
    lookupHeader (setHeader h k v) k' =
      if k' = k then some v else lookupHeader h k' := by
  unfold setHeader
  by_cases ha : h.any (fun p => p.1 = k) = true
  · rw [if_pos ha]
    by_cases hk : k' = k
    · subst hk
      rw [if_pos rfl]
      exact lookupHeader_map_set_self h k' v ha
    · rw [if_neg hk]
      exact lookupHeader_map_set_ne h k k' v hk
  · rw [if_neg ha]
    by_cases hk : k' = k
    · subst hk
      rw [if_pos rfl]
      exact lookupHeader_append_single_self h k' v (Bool.eq_false_iff.mpr ha)
    · rw [if_neg hk]
      exact lookupHeader_append_single_ne h k k' v hk

theorem lookupHeader_foldl_set (l : List (String × List String))
    (init : List (String × List String)) (k : String)
    (hno : ∀ p ∈ l, p.1 ≠ k) :
    lookupHeader (l.foldl (fun acc p => setHeader acc p.1 p.2) init) k =
      lookupHeader init k := by
  induction l generalizing init with
  | nil => rfl
  | cons p t ih =>
    rw [List.foldl_cons]
    rw [ih _ (fun q hq => hno q (List.mem_cons_of_mem p hq))]
    rw [lookupHeader_setHeader]
    exact if_neg (fun hc => hno p (List.mem_cons_self p t) hc.symm)

theorem lookupHeader_eq_none_forall (h : List (String × List String)) (k : String)
    (hn : lookupHeader h k = none) : ∀ p ∈ h, p.1 ≠ k := by
  induction h with
  | nil =>
    intro q hq
    cases hq
  | cons p t ih =>
    rw [lookupHeader_cons] at hn
    by_cases hp : k = p.1
    · rw [if_pos hp] at hn
      cases hn
    · rw [if_neg hp] at hn
      intro q hq
      rcases List.mem_cons.mp hq with h1 | h2
      · subst h1
        exact fun hc => hp hc.symm
      · exact ih hn q h2

theorem mem_headersToForward (h : List (String × List String))
    (q : String × List String) :
    q ∈ headersToForward h ↔ (q ∈ h ∧ lowerString q.1 ≠ "authorization") := by
  unfold headersToForward
  simp [List.mem_filter]

theorem headersToForward_key_not_lower_auth (h : List (String × List String))
    (q : String × List String) (hq : q ∈ headersToForward h) :
    lowerString q.1 ≠ "authorization" :=
  ((mem_headersToForward h q).mp hq).2

theorem lookupHeader_outbound_auth_names (apiKey : String)
    (inbound : List (String × List String)) (k : String)
    (hk : lowerString k = "authorization") :
    lookupHeader (outboundHeaders apiKey inbound) k =
      if k = "Authorization" then some ["Bearer " ++ apiKey] else none := by
  have hno : ∀ p ∈ headersToForward inbound, p.1 ≠ k := by
    intro p hp hc
    exact headersToForward_key_not_lower_auth inbound p hp (by rw [hc, hk])
  unfold outboundHeaders
  rw [lookupHeader_foldl_set _ _ _ hno]
  rw [lookupHeader_setHeader, lookupHeader_setHeader]
  have hct : ¬ k = "Content-Type" := by
    intro hc
    subst hc
    exact absurd hk (by decide)
  rw [if_neg hct]
  by_cases hA : k = "Authorization"
  · rw [if_pos hA, if_pos hA]
  · rw [if_neg hA, if_neg hA, lookupHeader_nil]

/-! Helper lemmas about the handler trace and the payload decoder. -/

theorem handleEvents_branches (cfg : Config) (req : Request) :
    handleEvents cfg req = [.writeStatus 401, .writeBody "Unauthorized\n"] ∨
    handleEvents cfg req = [.writeStatus 400, .writeBody "Bad Request\n"] ∨
    (∃ tag, handleEvents cfg req = [.writeStatus 200, .writeBody (notLatestBody tag)]) ∨
    (∃ body, req.body = some body ∧
      handleEvents cfg req =
        [.writeStatus 201, .writeBody (ackBody req.id),
         .spawnTask ⟨cfg.delaySeconds, cfg.watchtowerURL ++ "/v1/update", body,
           outboundHeaders cfg.apiKey req.headers⟩]) := by
  by_cases hid : req.id = cfg.webhookID
  · cases hb : req.body with
    | none =>
      exact Or.inr (Or.inl (by simp [handleEvents, hid, hb]))
    | some body =>
      by_cases hw : cfg.watchOnly = true
      · cases hd : decodePayload body with
        | none =>
          exact Or.inr (Or.inl (by simp [handleEvents, hid, hb, hw, hd]))
        | some p =>
          by_cases ht : p.pushData.tag = "latest"
          · refine Or.inr (Or.inr (Or.inr ⟨body, rfl, ?_⟩))
            simp [handleEvents, acceptEvents, hid, hb, hw, hd, ht]
          · refine Or.inr (Or.inr (Or.inl ⟨p.pushData.tag, ?_⟩))
            simp [handleEvents, hid, hb, hw, hd, ht]
      · refine Or.inr (Or.inr (Or.inr ⟨body, rfl, ?_⟩))
        simp [handleEvents, acceptEvents, hid, hb, hw]
  · exact Or.inl (by simp [handleEvents, hid])

theorem taskOf_handleEvents_eq_some (cfg : Config) (req : Request) (t : ScheduledTask)
    (h : taskOf (handleEvents cfg req) = some t) :
    ∃ body, req.body = some body ∧
      t = ⟨cfg.delaySeconds, cfg.watchtowerURL ++ "/v1/update", body,
        outboundHeaders cfg.apiKey req.headers⟩ ∧
      handleEvents cfg req =
        [.writeStatus 201, .writeBody (ackBody req.id), .spawnTask t] := by
  rcases handleEvents_branches cfg req with h1 | h2 | ⟨tag, h3⟩ | ⟨body, hb, h4⟩
  · rw [h1] at h
    cases h
  · rw [h2] at h
    cases h
  · rw [h3] at h
    cases h
  · rw [h4] at h
    unfold taskOf at h
    cases h
    exact ⟨body, hb, rfl, h4⟩

theorem decodePayloadFields_pushData_eq (fs : List (String × Json))
    (p : DockerHubPayload)
    (hmiss : ∀ q ∈ fs, lowerString q.1 ≠ "push_data") :
    ∀ cur, decodePayloadFields cur fs = some p → p.pushData = cur.pushData := by
  induction fs with
  | nil =>
    intro cur h
    unfold decodePayloadFields at h
    cases h
    rfl
  | cons q t ih =>
    obtain ⟨k, v⟩ := q
    intro cur h
    have hq : lowerString k ≠ "push_data" := hmiss (k, v) (List.mem_cons_self (k, v) t)
    have hmiss2 : ∀ q2 ∈ t, lowerString q2.1 ≠ "push_data" :=
      fun q2 hq2 => hmiss q2 (List.mem_cons_of_mem (k, v) hq2)
    by_cases hr : lowerString k = "repository"
    · cases v with
      | null =>
        simp only [decodePayloadFields] at h
        rw [if_neg hq, if_pos hr] at h
        exact ih hmiss2 cur h
      | objVal fs2 =>
        simp only [decodePayloadFields] at h
        rw [if_neg hq, if_pos hr] at h
        cases hrr : decodeRepositoryFields cur.repository fs2 with
        | none =>
          rw [hrr] at h
          exact Option.noConfusion h
        | some rp =>
          rw [hrr] at h
          exact ih hmiss2 ⟨cur.pushData, rp⟩ h
      | boolVal b => simp [decodePayloadFields, hq, hr] at h
      | numVal s => simp [decodePayloadFields, hq, hr] at h
      | strVal s => simp [decodePayloadFields, hq, hr] at h
      | arrVal xs => simp [decodePayloadFields, hq, hr] at h
    · simp only [decodePayloadFields] at h
      rw [if_neg hq, if_neg hr] at h
      exact ih hmiss2 cur h

theorem respBodyOf_status_body (a : Nat) (s : String) (rest : List Event)
    (hrest : respBodyOf rest = "") :
    respBodyOf (Event.writeStatus a :: Event.writeBody s :: rest) = s := by
  show s ++ respBodyOf rest = s
  rw [hrest]
  exact String.append_empty s

/-! The claims. -/

/-- Claim C1 counterexample: with an inbound `Content-Type: text/plain`
header, the outbound request's Content-Type is the forwarded inbound
value, not the injected `application/json`: the copy loop at src/main.go
lines 184-186 runs after the `Set` calls and overwrites them. -/
theorem c1_counterexample :
    lookupHeader (outboundHeaders "secret" [("Content-Type", ["text/plain"])])
        "Content-Type" = some ["text/plain"] ∧
    lookupHeader (outboundHeaders "secret" [("Content-Type", ["text/plain"])])
        "Content-Type" ≠ some ["application/json"] :=
  ⟨by decide, by decide⟩

/-- Claim C1 (amended): in the outbound POST the injected
`Authorization: Bearer <api_key>` always wins, because every inbound header
whose name lowercases to "authorization" is removed before the copy loop;
the injected `Content-Type: application/json` survives exactly when the
inbound request carried no `Content-Type` header, since an inbound
`Content-Type` is copied after the `Set` and overwrites it. -/
theorem c1_injected_headers (apiKey : String) (inbound : List (String × List String))
    (hct : lookupHeader inbound "Content-Type" = none) :
    lookupHeader (outboundHeaders apiKey inbound) "Authorization" =
      some ["Bearer " ++ apiKey] ∧
    lookupHeader (outboundHeaders apiKey inbound) "Content-Type" =
      some ["application/json"] := by
  constructor
  · rw [lookupHeader_outbound_auth_names apiKey inbound "Authorization" (by decide),
      if_pos rfl]
  · have hno : ∀ p ∈ headersToForward inbound, p.1 ≠ "Content-Type" := by
      intro p hp
      exact lookupHeader_eq_none_forall inbound "Content-Type" hct p
        ((mem_headersToForward inbound p).mp hp).1
    unfold outboundHeaders
    rw [lookupHeader_foldl_set _ _ _ hno, lookupHeader_setHeader, if_pos rfl]

/-- Claim C1 witness: the amended statement at a concrete input. -/
theorem c1_witness :
    lookupHeader [("X-Trace", ["1"])] "Content-Type" = none ∧
    (lookupHeader (outboundHeaders "secret" [("X-Trace", ["1"])]) "Authorization" =
        some ["Bearer " ++ "secret"] ∧
      lookupHeader (outboundHeaders "secret" [("X-Trace", ["1"])]) "Content-Type" =
        some ["application/json"]) :=
  ⟨by decide, c1_injected_headers "secret" [("X-Trace", ["1"])] (by decide)⟩

/-- Claim C2: the carried-over header set is exactly the inbound headers
minus every header whose name lowercases to "authorization", and in the
final outbound header map a name that lowercases to "authorization" holds
either the injected bearer value (for the exact key "Authorization") or
nothing — never the original inbound value. -/
theorem c2_authorization_stripped (inbound : List (String × List String))
    (apiKey k : String) (hk : lowerString k = "authorization") :
    (∀ q : String × List String, q ∈ headersToForward inbound ↔
      (q ∈ inbound ∧ lowerString q.1 ≠ "authorization")) ∧
    lookupHeader (outboundHeaders apiKey inbound) k =
      (if k = "Authorization" then some ["Bearer " ++ apiKey] else none) :=
  ⟨fun q => mem_headersToForward inbound q,
   lookupHeader_outbound_auth_names apiKey inbound k hk⟩

/-- Claim C2 witness: an inbound `Authorization: token123` is dropped from
the forwarded set and the outbound map holds only the injected bearer. -/
theorem c2_witness :
    lowerString "Authorization" = "authorization" ∧
    ((∀ q : String × List String,
        q ∈ headersToForward [("Authorization", ["token123"]), ("X-A", ["1"])] ↔
          (q ∈ [("Authorization", ["token123"]), ("X-A", ["1"])] ∧
            lowerString q.1 ≠ "authorization")) ∧
      lookupHeader
          (outboundHeaders "secret" [("Authorization", ["token123"]), ("X-A", ["1"])])
          "Authorization" =
        (if "Authorization" = "Authorization" then some ["Bearer " ++ "secret"]
          else none)) :=
  ⟨by decide,
   c2_authorization_stripped [("Authorization", ["token123"]), ("X-A", ["1"])]
     "secret" "Authorization" (by decide)⟩

/-- Claim C3: a mismatched webhook id yields exactly the 401 response and
nothing else: the trace is the status and error body only, independent of
the request body and of every configuration flag, and no task is spawned. -/
theorem c3_mismatch_unauthorized (cfg : Config) (req : Request)
    (h : req.id ≠ cfg.webhookID) :
    handleEvents cfg req = [.writeStatus 401, .writeBody "Unauthorized\n"] ∧
    respStatusOf (handleEvents cfg req) = some 401 ∧
    taskOf (handleEvents cfg req) = none := by
  have he : handleEvents cfg req = [.writeStatus 401, .writeBody "Unauthorized\n"] := by
    simp [handleEvents, h]
  refine ⟨he, ?_, ?_⟩ <;> rw [he] <;> rfl

/-- Claim C3 witness: a concrete mismatching id. -/
theorem c3_witness :
    ("evil" : String) ≠ "hook" ∧
    (handleEvents ⟨"hook", "secret", true, 20, "http://wt"⟩ ⟨"evil", some "x", []⟩ =
        [.writeStatus 401, .writeBody "Unauthorized\n"] ∧
      respStatusOf (handleEvents ⟨"hook", "secret", true, 20, "http://wt"⟩
          ⟨"evil", some "x", []⟩) = some 401 ∧
      taskOf (handleEvents ⟨"hook", "secret", true, 20, "http://wt"⟩
          ⟨"evil", some "x", []⟩) = none) :=
  ⟨by decide, c3_mismatch_unauthorized _ _ (by decide)⟩

/-- Claim C4: with filtering enabled and a body decoding to a tag other
than "latest", the response is 200 with the exact message body containing
the literal received tag, and no deferred task is created. -/
theorem c4_tag_not_latest (cfg : Config) (req : Request) (body : String)
    (p : DockerHubPayload) (hw : cfg.watchOnly = true)
    (hid : req.id = cfg.webhookID) (hb : req.body = some body)
    (hd : decodePayload body = some p) (ht : p.pushData.tag ≠ "latest") :
    handleEvents cfg req =
      [.writeStatus 200, .writeBody (notLatestBody p.pushData.tag)] ∧
    respStatusOf (handleEvents cfg req) = some 200 ∧
    respBodyOf (handleEvents cfg req) = notLatestBody p.pushData.tag ∧
    taskOf (handleEvents cfg req) = none := by
  have he : handleEvents cfg req =
      [.writeStatus 200, .writeBody (notLatestBody p.pushData.tag)] := by
    simp [handleEvents, hw, hid, hb, hd, ht]
  refine ⟨he, ?_, ?_, ?_⟩
  · rw [he]
    exact rfl
  · rw [he]
    exact respBodyOf_status_body 200 (notLatestBody p.pushData.tag) [] rfl
  · rw [he]
    exact rfl

/-- Claim C4 witness: the body from the spec's example yields exactly the
response body from the spec's example. -/
theorem c4_witness :
    decodePayload
        "\x7b\"push_data\":\x7b\"tag\":\"v1.2.3\"\x7d,\"repository\":\x7b\"name\":\"app\"\x7d\x7d" =
      some ⟨⟨"v1.2.3"⟩, ⟨"app", ""⟩⟩ ∧
    notLatestBody "v1.2.3" =
      "\x7b\"message\":\"Webhook received but not forwarded - tag is not latest\",\"tag\":\"v1.2.3\"\x7d" ∧
    (handleEvents ⟨"hook", "secret", true, 20, "http://wt"⟩
        ⟨"hook",
         some "\x7b\"push_data\":\x7b\"tag\":\"v1.2.3\"\x7d,\"repository\":\x7b\"name\":\"app\"\x7d\x7d",
         []⟩ =
      [.writeStatus 200, .writeBody (notLatestBody "v1.2.3")] ∧
    respStatusOf (handleEvents ⟨"hook", "secret", true, 20, "http://wt"⟩
        ⟨"hook",
         some "\x7b\"push_data\":\x7b\"tag\":\"v1.2.3\"\x7d,\"repository\":\x7b\"name\":\"app\"\x7d\x7d",
         []⟩) = some 200 ∧
    respBodyOf (handleEvents ⟨"hook", "secret", true, 20, "http://wt"⟩
        ⟨"hook",
         some "\x7b\"push_data\":\x7b\"tag\":\"v1.2.3\"\x7d,\"repository\":\x7b\"name\":\"app\"\x7d\x7d",
         []⟩) = notLatestBody "v1.2.3" ∧
    taskOf (handleEvents ⟨"hook", "secret", true, 20, "http://wt"⟩
        ⟨"hook",
         some "\x7b\"push_data\":\x7b\"tag\":\"v1.2.3\"\x7d,\"repository\":\x7b\"name\":\"app\"\x7d\x7d",
         []⟩) = none) :=
  ⟨by decide, by decide,
   c4_tag_not_latest _ _ _ ⟨⟨"v1.2.3"⟩, ⟨"app", ""⟩⟩ rfl rfl rfl (by decide) (by decide)⟩

/-- Claim C5: with filtering enabled and an undecodable body, the handler
answers 400, a 201 status never appears in the trace, and no deferred task
is created — the failure is terminal and synchronous. -/
theorem c5_undecodable_body (cfg : Config) (req : Request) (body : String)
    (hw : cfg.watchOnly = true) (hid : req.id = cfg.webhookID)
    (hb : req.body = some body) (hd : decodePayload body = none) :
    handleEvents cfg req = [.writeStatus 400, .writeBody "Bad Request\n"] ∧
    respStatusOf (handleEvents cfg req) = some 400 ∧
    Event.writeStatus 201 ∉ handleEvents cfg req ∧
    taskOf (handleEvents cfg req) = none := by
  have he : handleEvents cfg req = [.writeStatus 400, .writeBody "Bad Request\n"] := by
    simp [handleEvents, hw, hid, hb, hd]
  refine ⟨he, ?_, ?_, ?_⟩
  · rw [he]
    exact rfl
  · rw [he]
    decide
  · rw [he]
    exact rfl

/-- Claim C5 witness: the raw text body `not-json`. -/
theorem c5_witness :
    decodePayload "not-json" = none ∧
    (handleEvents ⟨"hook", "secret", true, 20, "http://wt"⟩ ⟨"hook", some "not-json", []⟩ =
        [.writeStatus 400, .writeBody "Bad Request\n"] ∧
      respStatusOf (handleEvents ⟨"hook", "secret", true, 20, "http://wt"⟩
          ⟨"hook", some "not-json", []⟩) = some 400 ∧
      Event.writeStatus 201 ∉ handleEvents ⟨"hook", "secret", true, 20, "http://wt"⟩
          ⟨"hook", some "not-json", []⟩ ∧
      taskOf (handleEvents ⟨"hook", "secret", true, 20, "http://wt"⟩
          ⟨"hook", some "not-json", []⟩) = none) :=
  ⟨by decide, c5_undecodable_body _ _ "not-json" rfl rfl rfl (by decide)⟩

/-- Claim C6: with filtering disabled (the environment flag does not
lowercase to "true"), every request with a matching id and a successfully
read body — the body is never inspected, so this holds for arbitrary
bytes — is answered 201 with the acknowledgment body, and one deferred
task is scheduled whose sleep is exactly the configured delay. -/
theorem c6_filtering_disabled (env : String) (cfg : Config) (req : Request)
    (body : String) (henv : lowerString env ≠ "true")
    (hw : cfg.watchOnly = parseWatchOnly env)
    (hid : req.id = cfg.webhookID) (hb : req.body = some body) :
    handleEvents cfg req =
      [.writeStatus 201, .writeBody (ackBody req.id),
       .spawnTask ⟨cfg.delaySeconds, cfg.watchtowerURL ++ "/v1/update", body,
         outboundHeaders cfg.apiKey req.headers⟩] ∧
    respStatusOf (handleEvents cfg req) = some 201 ∧
    respBodyOf (handleEvents cfg req) = ackBody req.id ∧
    (∃ t, taskOf (handleEvents cfg req) = some t ∧ t.delay = cfg.delaySeconds) := by
  have hwf : cfg.watchOnly = false := by
    rw [hw]
    unfold parseWatchOnly
    exact decide_eq_false henv
  have he : handleEvents cfg req =
      [.writeStatus 201, .writeBody (ackBody req.id),
       .spawnTask ⟨cfg.delaySeconds, cfg.watchtowerURL ++ "/v1/update", body,
         outboundHeaders cfg.apiKey req.headers⟩] := by
    simp [handleEvents, acceptEvents, hid, hb, hwf]
  refine ⟨he, ?_, ?_, ?_⟩
  · rw [he]
    exact rfl
  · rw [he]
    exact respBodyOf_status_body 201 (ackBody req.id) _ rfl
  · refine ⟨⟨cfg.delaySeconds, cfg.watchtowerURL ++ "/v1/update", body,
      outboundHeaders cfg.apiKey req.headers⟩, ?_, rfl⟩
    rw [he]
    exact rfl

/-- Claim C6 witness: flag value "false", an arbitrary non-JSON body. -/
theorem c6_witness :
    lowerString "false" ≠ "true" ∧
    (handleEvents ⟨"hook", "secret", false, 20, "http://wt"⟩
        ⟨"hook", some "any bytes", [("X-A", ["1"])]⟩ =
      [.writeStatus 201, .writeBody (ackBody "hook"),
       .spawnTask ⟨20, "http://wt" ++ "/v1/update", "any bytes",
         outboundHeaders "secret" [("X-A", ["1"])]⟩] ∧
    respStatusOf (handleEvents ⟨"hook", "secret", false, 20, "http://wt"⟩
        ⟨"hook", some "any bytes", [("X-A", ["1"])]⟩) = some 201 ∧
    respBodyOf (handleEvents ⟨"hook", "secret", false, 20, "http://wt"⟩
        ⟨"hook", some "any bytes", [("X-A", ["1"])]⟩) = ackBody "hook" ∧
    (∃ t, taskOf (handleEvents ⟨"hook", "secret", false, 20, "http://wt"⟩
        ⟨"hook", some "any bytes", [("X-A", ["1"])]⟩) = some t ∧ t.delay = 20)) :=
  ⟨by decide,
   c6_filtering_disabled "false" ⟨"hook", "secret", false, 20, "http://wt"⟩
     ⟨"hook", some "any bytes", [("X-A", ["1"])]⟩ "any bytes"
     (by decide) (by decide) rfl rfl⟩

/-- Claim C7: the delay is 20 when the environment value is empty, stays 20
for any unparseable string or non-positive parsed value, and equals any
positive parsed override. -/
theorem c7_delay_seconds :
    delaySecondsOf "" = 20 ∧
    (∀ s, parseInt64 s = none → delaySecondsOf s = 20) ∧
    (∀ s v, parseInt64 s = some v → v ≤ 0 → delaySecondsOf s = 20) ∧
    (∀ s v, parseInt64 s = some v → 0 < v → delaySecondsOf s = v) := by
  refine ⟨rfl, ?_, ?_, ?_⟩
  · intro s hs
    by_cases he : s = ""
    · rw [he]
      exact rfl
    · unfold delaySecondsOf
      rw [if_neg he, hs]
  · intro s v hs hv
    have he : s ≠ "" := by
      intro h
      rw [h] at hs
      exact Option.noConfusion hs
    unfold delaySecondsOf
    rw [if_neg he, hs]
    show (if 0 < v then v else 20) = 20
    rw [if_neg (not_lt.mpr hv)]
  · intro s v hs hv
    have he : s ≠ "" := by
      intro h
      rw [h] at hs
      exact Option.noConfusion hs
    unfold delaySecondsOf
    rw [if_neg he, hs]
    show (if 0 < v then v else 20) = v
    rw [if_pos hv]

/-- Claim C7 witness: concrete overrides. -/
theorem c7_witness :
    delaySecondsOf "" = 20 ∧
    (parseInt64 "abc" = none ∧ delaySecondsOf "abc" = 20) ∧
    (parseInt64 "-5" = some (-5) ∧ delaySecondsOf "-5" = 20) ∧
    (parseInt64 "0" = some 0 ∧ delaySecondsOf "0" = 20) ∧
    (parseInt64 "30" = some 30 ∧ delaySecondsOf "30" = 30) :=
  ⟨c7_delay_seconds.1,
   ⟨by decide, c7_delay_seconds.2.1 "abc" (by decide)⟩,
   ⟨by decide, c7_delay_seconds.2.2.1 "-5" (-5) (by decide) (by decide)⟩,
   ⟨by decide, c7_delay_seconds.2.2.1 "0" 0 (by decide) (by decide)⟩,
   ⟨by decide, c7_delay_seconds.2.2.2 "30" 30 (by decide) (by decide)⟩⟩

/-- Claim C8: whenever a deferred task is spawned, the whole trace is the
201 status, then the acknowledgment body, then the spawn — so the response
to the caller is written strictly before the task (whose own delay precedes
its outbound call by the `ScheduledTask` semantics) begins. -/
theorem c8_response_before_task (cfg : Config) (req : Request) (t : ScheduledTask)
    (h : taskOf (handleEvents cfg req) = some t) :
    handleEvents cfg req =
      [.writeStatus 201, .writeBody (ackBody req.id), .spawnTask t] ∧
    (∀ i, (handleEvents cfg req).get? i = some (.spawnTask t) →
      ∃ j k, j < i ∧ k < i ∧
        (handleEvents cfg req).get? j = some (.writeStatus 201) ∧
        (handleEvents cfg req).get? k = some (.writeBody (ackBody req.id))) := by
  rcases taskOf_handleEvents_eq_some cfg req t h with ⟨body, hb, ht, he⟩
  refine ⟨he, ?_⟩
  intro i hi
  rw [he] at hi ⊢
  rcases i with _ | _ | _ | n
  · simp at hi
  · simp at hi
  · exact ⟨0, 1, by omega, by omega, rfl, rfl⟩
  · simp [List.get?] at hi

/-- Claim C8 witness: a concrete accepted request. -/
theorem c8_witness :
    handleEvents ⟨"hook", "secret", false, 20, "http://wt"⟩ ⟨"hook", some "push", []⟩ =
      [.writeStatus 201, .writeBody (ackBody "hook"),
       .spawnTask ⟨20, "http://wt" ++ "/v1/update", "push", outboundHeaders "secret" []⟩] :=
  (c8_response_before_task ⟨"hook", "secret", false, 20, "http://wt"⟩
    ⟨"hook", some "push", []⟩
    ⟨20, "http://wt" ++ "/v1/update", "push", outboundHeaders "secret" []⟩ (by decide)).1

/-- Claim C9: every spawned task's target URL is exactly the configured
base URL with the literal "/v1/update" appended. -/
theorem c9_outbound_url (cfg : Config) (req : Request) (t : ScheduledTask)
    (h : taskOf (handleEvents cfg req) = some t) :
    t.url = cfg.watchtowerURL ++ "/v1/update" := by
  rcases taskOf_handleEvents_eq_some cfg req t h with ⟨body, hb, ht, he⟩
  rw [ht]

/-- Claim C9 witness: `WATCHTOWER_URL = https://wt.example:9999` yields the
call target `https://wt.example:9999/v1/update`. -/
theorem c9_witness :
    (taskOf (handleEvents ⟨"hook", "secret", false, 20, "https://wt.example:9999"⟩
        ⟨"hook", some "push", []⟩)).map ScheduledTask.url =
      some "https://wt.example:9999/v1/update" := by
  have h : taskOf (handleEvents ⟨"hook", "secret", false, 20, "https://wt.example:9999"⟩
      ⟨"hook", some "push", []⟩) =
      some ⟨20, "https://wt.example:9999" ++ "/v1/update", "push",
        outboundHeaders "secret" []⟩ := by decide
  have hu := c9_outbound_url ⟨"hook", "secret", false, 20, "https://wt.example:9999"⟩
    ⟨"hook", some "push", []⟩
    ⟨20, "https://wt.example:9999" ++ "/v1/update", "push", outboundHeaders "secret" []⟩ h
  rw [h]
  show some (ScheduledTask.url ⟨20, "https://wt.example:9999" ++ "/v1/update", "push",
    outboundHeaders "secret" []⟩) = some "https://wt.example:9999/v1/update"
  rw [hu]
  decide

/-- Claim C10 counterexample: the body "[]" is valid JSON and contains no
push_data.tag, yet with filtering enabled the handler answers 400 — Go's
`json.Unmarshal` of a JSON array into a struct fails — so a missing tag in
merely-valid JSON can be a 400 error. -/
theorem c10_counterexample :
    parseJson "[]" = some (.arrVal []) ∧
    decodePayload "[]" = none ∧
    handleEvents ⟨"hook", "secret", true, 20, "http://wt"⟩ ⟨"hook", some "[]", []⟩ =
      [.writeStatus 400, .writeBody "Bad Request\n"] :=
  ⟨rfl, rfl, by decide⟩

/-- Claim C10 (amended): when the body is a JSON object that unmarshals
successfully and has no member named push_data (case-insensitively), the
decoded tag is the zero value "", so the handler treats the request as a
non-latest tag: 200 with the message body for tag "" and no deferred task.
A body that is valid JSON but fails struct unmarshalling (non-object top
level, or a type-mismatched expected field) is instead a 400 error. -/
theorem c10_missing_push_data (cfg : Config) (req : Request) (body : String)
    (fs : List (String × Json)) (p : DockerHubPayload)
    (hw : cfg.watchOnly = true) (hid : req.id = cfg.webhookID)
    (hb : req.body = some body)
    (hparse : parseJson body = some (.objVal fs))
    (hdec : decodePayloadFields payloadZero fs = some p)
    (hmiss : ∀ q ∈ fs, lowerString q.1 ≠ "push_data") :
    p.pushData.tag = "" ∧
    handleEvents cfg req = [.writeStatus 200, .writeBody (notLatestBody "")] ∧
    taskOf (handleEvents cfg req) = none := by
  have hpd : p.pushData = payloadZero.pushData :=
    decodePayloadFields_pushData_eq fs p hmiss payloadZero hdec
  have htag : p.pushData.tag = "" := by
    rw [hpd]
    exact rfl
  have hd : decodePayload body = some p := by
    unfold decodePayload
    rw [hparse]
    exact hdec
  have he : handleEvents cfg req = [.writeStatus 200, .writeBody (notLatestBody "")] := by
    simp [handleEvents, hw, hid, hb, hd, htag]
  refine ⟨htag, he, ?_⟩
  rw [he]
  exact rfl

/-- Claim C10 witness: a JSON object carrying only `repository`. -/
theorem c10_witness :
    parseJson "\x7b\"repository\":\x7b\"name\":\"app\"\x7d\x7d" =
      some (.objVal [("repository", .objVal [("name", .strVal "app")])]) ∧
    ((⟨⟨""⟩, ⟨"app", ""⟩⟩ : DockerHubPayload).pushData.tag = "" ∧
      handleEvents ⟨"hook", "secret", true, 20, "http://wt"⟩
          ⟨"hook", some "\x7b\"repository\":\x7b\"name\":\"app\"\x7d\x7d", []⟩ =
        [.writeStatus 200, .writeBody (notLatestBody "")] ∧
      taskOf (handleEvents ⟨"hook", "secret", true, 20, "http://wt"⟩
          ⟨"hook", some "\x7b\"repository\":\x7b\"name\":\"app\"\x7d\x7d", []⟩) = none) :=
  ⟨rfl,
   c10_missing_push_data ⟨"hook", "secret", true, 20, "http://wt"⟩
     ⟨"hook", some "\x7b\"repository\":\x7b\"name\":\"app\"\x7d\x7d", []⟩
     "\x7b\"repository\":\x7b\"name\":\"app\"\x7d\x7d"
     [("repository", .objVal [("name", .strVal "app")])]
     ⟨⟨""⟩, ⟨"app", ""⟩⟩ rfl rfl rfl rfl (by decide) (by decide)⟩
